import Mathlib

/-!
Shallow embedding of the RCord server core (storage layer, control gateway
fragments and media gateway) together with proofs about the behaviour of its
operations.  Python dicts are modelled as insertion-ordered association
lists, timestamps as ISO-8601 strings parsed to epoch microseconds, and each
storage method as a pure function from the persisted state to a result and
the new persisted state (the state is returned unchanged on paths that do
not call `_write`).
-/

namespace RCord

/-! ### Association lists modelling Python dicts (insertion ordered) -/

/-- Lookup by key, first match: `d.get(k)`. -/
def alookup (k : String) : List (String × α) → Option α
  | [] => none
  | (k', v) :: rest => if k' = k then some v else alookup k rest

/-- `d[k] = v`: update in place when the key exists, append otherwise. -/
def setKey (k : String) (v : α) : List (String × α) → List (String × α)
  | [] => [(k, v)]
  | (k', v') :: rest => if k' = k then (k', v) :: rest else (k', v') :: setKey k v rest

/-- `k in d`. -/
def hasKey (k : String) (l : List (String × α)) : Bool := (alookup k l).isSome

/-- The dict after `d.setdefault(k, dflt)`. -/
def ensureKey (k : String) (dflt : α) (l : List (String × α)) : List (String × α) :=
  if hasKey k l then l else l ++ [(k, dflt)]

/-- The value returned by `d.setdefault(k, dflt)`. -/
def getOr (k : String) (dflt : α) (l : List (String × α)) : α :=
  (alookup k l).getD dflt

/-- Code-point comparison of strings, as Python compares `str` values. -/
def listLe : List Char → List Char → Bool
  | [], _ => true
  | _ :: _, [] => false
  | c :: cs, d :: ds =>
    if c.toNat < d.toNat then true
    else if d.toNat < c.toNat then false
    else listLe cs ds

def strLe (a b : String) : Bool := listLe a.data b.data

def insertSorted (x : String) : List String → List String
  | [] => [x]
  | y :: ys => if strLe x y then x :: y :: ys else y :: insertSorted x ys

/-- Python `sorted` on a list of strings (ascending code-point order). -/
def sortStrs (xs : List String) : List String := xs.foldr insertSorted []

/-! ### ISO-8601 timestamps (model of `datetime.fromisoformat` /
`datetime.isoformat`).  A parsed timestamp is the epoch time in
microseconds; a naive timestamp (no offset) is interpreted as UTC, exactly
as `_is_invite_expired` does with `replace(tzinfo=timezone.utc)`. -/

def digVal (c : Char) : Option Nat :=
  if '0' ≤ c ∧ c ≤ '9' then some (c.toNat - 48) else none

/-- Parse exactly `n` decimal digits, returning the value and the rest. -/
def parseDigits : Nat → Nat → List Char → Option (Nat × List Char)
  | 0, acc, cs => some (acc, cs)
  | n + 1, acc, c :: cs =>
    match digVal c with
    | some d => parseDigits n (acc * 10 + d) cs
    | none => none
  | _ + 1, _, [] => none

/-- Parse 1 to 6 fractional-second digits into microseconds. -/
def parseFrac : Nat → Nat → List Char → Option (Nat × List Char)
  | 0, acc, cs => some (acc, cs)
  | n + 1, acc, c :: cs =>
    match digVal c with
    | some d => parseFrac n (acc * 10 + d) cs
    | none => some (acc * 10 ^ (n + 1), c :: cs)
  | n + 1, acc, [] => some (acc * 10 ^ (n + 1), [])

def isLeap (y : Nat) : Bool := y % 4 = 0 ∧ (y % 100 ≠ 0 ∨ y % 400 = 0)

def daysInMonth (y m : Nat) : Nat :=
  if m = 2 then (if isLeap y then 29 else 28)
  else if m = 4 ∨ m = 6 ∨ m = 9 ∨ m = 11 then 30
  else 31

/-- Days since 1970-01-01 of a proleptic-Gregorian civil date. -/
def daysFromCivil (y m d : Int) : Int :=
  let y' : Int := if m ≤ 2 then y - 1 else y
  let era : Int := (if 0 ≤ y' then y' else y' - 399) / 400
  let yoe : Int := y' - era * 400
  let mp : Int := if 2 < m then m - 3 else m + 9
  let doy : Int := (153 * mp + 2) / 5 + d - 1
  let doe : Int := yoe * 365 + yoe / 4 - yoe / 100 + doy
  era * 146097 + doe - 719468

/-- Parse `[+-]HH:MM` or `Z` as an offset in seconds; must consume all input. -/
def parseOffset : List Char → Option Int
  | [] => none
  | ['Z'] => some 0
  | c :: cs =>
    if c = '+' ∨ c = '-' then
      match parseDigits 2 0 cs with
      | some (oh, ':' :: cs₂) =>
        match parseDigits 2 0 cs₂ with
        | some (om, []) =>
          if oh ≤ 23 ∧ om ≤ 59 then
            let secs : Int := (oh : Int) * 3600 + (om : Int) * 60
            some (if c = '-' then -secs else secs)
          else none
        | _ => none
      | _ => none
    else none

/-- Parse `HH:MM:SS[.ffffff]` followed by an optional offset; the result is
(microseconds within the day, offset seconds with `0` for naive). -/
def parseTimePart (cs : List Char) : Option (Nat × Int) :=
  match parseDigits 2 0 cs with
  | some (h, ':' :: cs₁) =>
    match parseDigits 2 0 cs₁ with
    | some (mi, ':' :: cs₂) =>
      match parseDigits 2 0 cs₂ with
      | some (s, rest) =>
        let step : Option (Nat × List Char) :=
          match rest with
          | '.' :: c :: cs₃ =>
            match digVal c with
            | some d => parseFrac 5 d cs₃
            | none => none
          | _ => some (0, rest)
        match step with
        | some (micro, rest') =>
          if h ≤ 23 ∧ mi ≤ 59 ∧ s ≤ 59 then
            let dayMicro := ((h * 3600 + mi * 60 + s) * 1000000 + micro)
            match rest' with
            | [] => some (dayMicro, 0)
            | _ => (parseOffset rest').map fun off => (dayMicro, off)
          else none
        | none => none
      | _ => none
    | _ => none
  | _ => none

/-- Model of `datetime.fromisoformat` restricted to the shapes the system
produces (`YYYY-MM-DD`, optionally `THH:MM:SS[.ffffff]` and an offset);
returns the epoch time in microseconds, naive timestamps read as UTC. -/
def parseIso (s : String) : Option Int :=
  match parseDigits 4 0 s.data with
  | some (y, '-' :: cs₁) =>
    match parseDigits 2 0 cs₁ with
    | some (m, '-' :: cs₂) =>
      match parseDigits 2 0 cs₂ with
      | some (d, rest) =>
        if 1 ≤ m ∧ m ≤ 12 ∧ 1 ≤ d ∧ d ≤ daysInMonth y m then
          let days := daysFromCivil (y : Int) (m : Int) (d : Int)
          match rest with
          | [] => some (days * 86400000000)
          | sep :: cs₃ =>
            if sep = 'T' ∨ sep = ' ' then
              (parseTimePart cs₃).map fun p =>
                days * 86400000000 + (p.1 : Int) - p.2 * 1000000
            else none
        else none
      | _ => none
    | _ => none
  | _ => none

/-! ### Records of the persisted data model (`Storage._default_data`). -/

structure UserRec where
  password : String
  created_at : String
deriving DecidableEq

structure RoomRec where
  members : List String
  created_at : String
  kind : String
deriving DecidableEq

structure ChatRec where
  participants : List String
  created_at : String
  kind : String
deriving DecidableEq

/-- An invite record: either a legacy bare target string, or an object
whose `target` is the value stored under the bucket's key (`"room"` or
`"chat"`) and whose `invited_at` may be absent. -/
inductive Invite where
  | str (target : String)
  | obj (target : Option String) (invited_at : Option String)
deriving DecidableEq

structure InviteBucket where
  rooms : List Invite
  chats : List Invite
deriving DecidableEq

def defaultBucket : InviteBucket := { rooms := [], chats := [] }

structure StatusRec where
  online : Bool
  last_seen : Option String
deriving DecidableEq

/-- A persisted message `{sender, ts, **payload}`; the payload carries
`kind` plus `text` (text messages) or `filename`/`content` (attachments). -/
structure Msg where
  sender : String
  ts : String
  kind : String
  text : Option String
  filename : Option String
  content : Option String
deriving DecidableEq

/-- The normalized in-memory data: the six collections of `_default_data`. -/
structure Data where
  users : List (String × UserRec)
  rooms : List (String × RoomRec)
  chats : List (String × ChatRec)
  messages : List (String × List Msg)
  invitesUsers : List (String × InviteBucket)
  status : List (String × StatusRec)
deriving DecidableEq

structure RawInvites where
  users : Option (List (String × InviteBucket))
deriving DecidableEq

/-- On-disk `data` before normalization: each collection may be missing
(`none` also stands for a value of the wrong JSON type, which
`_normalize_data` replaces by the same default). -/
structure RawData where
  users : Option (List (String × UserRec))
  rooms : Option (List (String × RoomRec))
  chats : Option (List (String × ChatRec))
  messages : Option (List (String × List Msg))
  invites : Option RawInvites
  status : Option (List (String × StatusRec))
deriving DecidableEq

/-! ### SHA-256 over byte lists (model of `hashlib.sha256`). -/

def w32 (n : Nat) : Nat := n % 4294967296

def rotr32 (x n : Nat) : Nat := w32 ((x >>> n) ||| (x <<< (32 - n)))

def shaK : List Nat :=
  [1116352408, 1899447441, 3049323471, 3921009573, 961987163, 1508970993,
   2453635748, 2870763221, 3624381080, 310598401, 607225278, 1426881987,
   1925078388, 2162078206, 2614888103, 3248222580, 3835390401, 4022224774,
   264347078, 604807628, 770255983, 1249150122, 1555081692, 1996064986,
   2554220882, 2821834349, 2952996808, 3210313671, 3336571891, 3584528711,
   113926993, 338241895, 666307205, 773529912, 1294757372, 1396182291,
   1695183700, 1986661051, 2177026350, 2456956037, 2730485921, 2820302411,
   3259730800, 3345764771, 3516065817, 3600352804, 4094571909, 275423344,
   430227734, 506948616, 659060556, 883997877, 958139571, 1322822218,
   1537002063, 1747873779, 1955562222, 2024104815, 2227730452, 2361852424,
   2428436474, 2756734187, 3204031479, 3329325298]

def shaH0 : List Nat :=
  [1779033703, 3144134277, 1013904242, 2773480762, 1359893119, 2600822924,
   528734635, 1541459225]

def bigS0 (x : Nat) : Nat := rotr32 x 2 ^^^ rotr32 x 13 ^^^ rotr32 x 22
def bigS1 (x : Nat) : Nat := rotr32 x 6 ^^^ rotr32 x 11 ^^^ rotr32 x 25
def smallS0 (x : Nat) : Nat := rotr32 x 7 ^^^ rotr32 x 18 ^^^ (x >>> 3)
def smallS1 (x : Nat) : Nat := rotr32 x 17 ^^^ rotr32 x 19 ^^^ (x >>> 10)

/-- Append the `0x80` byte, zero padding and the 64-bit big-endian bit
length, reaching a multiple of 64 bytes. -/
def padMessage (msg : List Nat) : List Nat :=
  let bitLen := msg.length * 8
  let z := (120 - ((msg.length + 1) % 64)) % 64
  msg ++ [0x80] ++ List.replicate z 0 ++
    ((List.range 8).map fun i => (bitLen >>> ((7 - i) * 8)) % 256)

def toBlocksAux : Nat → List Nat → List (List Nat)
  | 0, _ => []
  | _, [] => []
  | fuel + 1, c :: rest => ((c :: rest).take 64) :: toBlocksAux fuel ((c :: rest).drop 64)

def toBlocks (l : List Nat) : List (List Nat) := toBlocksAux l.length l

/-- Big-endian 32-bit words from a list of bytes. -/
def toWords : List Nat → List Nat
  | b0 :: b1 :: b2 :: b3 :: rest => (((b0 * 256 + b1) * 256 + b2) * 256 + b3) :: toWords rest
  | _ => []

/-- Message-schedule extension appending `n` further words. -/
def extendW (w : List Nat) : Nat → List Nat
  | 0 => w
  | n + 1 =>
    let w' := extendW w n
    let l := w'.length
    w' ++ [w32 (smallS1 (w'.getD (l - 2) 0) + w'.getD (l - 7) 0 +
                smallS0 (w'.getD (l - 15) 0) + w'.getD (l - 16) 0)]

def compress (hs : List Nat) (ws : List Nat) : List Nat :=
  let st := (shaK.zip ws).foldl
    (fun st kw =>
      match st, kw with
      | (a, b, c, d, e, f, g, h), (ki, wi) =>
        let ch := (e &&& f) ^^^ ((e ^^^ 0xffffffff) &&& g)
        let maj := (a &&& b) ^^^ (a &&& c) ^^^ (b &&& c)
        let t1 := w32 (h + bigS1 e + ch + ki + wi)
        let t2 := w32 (bigS0 a + maj)
        (w32 (t1 + t2), a, b, c, w32 (d + t1), e, f, g))
    (hs.getD 0 0, hs.getD 1 0, hs.getD 2 0, hs.getD 3 0,
     hs.getD 4 0, hs.getD 5 0, hs.getD 6 0, hs.getD 7 0)
  match st with
  | (a, b, c, d, e, f, g, h) =>
    List.zipWith (fun x y => w32 (x + y)) hs [a, b, c, d, e, f, g, h]

def sha256Words (msg : List Nat) : List Nat :=
  (toBlocks (padMessage msg)).foldl (fun hs block => compress hs (extendW (toWords block) 48)) shaH0

def hexChar (n : Nat) : Char := if n < 10 then Char.ofNat (48 + n) else Char.ofNat (87 + n)

def hex8 (n : Nat) : String :=
  String.mk ((List.range 8).map fun i => hexChar ((n >>> ((7 - i) * 4)) &&& 15))

def sha256hex (msg : List Nat) : String := String.join ((sha256Words msg).map hex8)

/-- UTF-8 encoding of a string as a byte list. -/
def utf8Bytes (s : String) : List Nat :=
  List.flatten (s.data.map fun c =>
    let n := c.toNat
    if n < 0x80 then [n]
    else if n < 0x800 then [0xc0 ||| (n >>> 6), 0x80 ||| (n &&& 0x3f)]
    else if n < 0x10000 then
      [0xe0 ||| (n >>> 12), 0x80 ||| ((n >>> 6) &&& 0x3f), 0x80 ||| (n &&& 0x3f)]
    else
      [0xf0 ||| (n >>> 18), 0x80 ||| ((n >>> 12) &&& 0x3f),
       0x80 ||| ((n >>> 6) &&& 0x3f), 0x80 ||| (n &&& 0x3f)])

/-! ### Canonical JSON (model of
`json.dumps(data, ensure_ascii=False, sort_keys=True, separators=(",", ":"))`). -/

def hex4lower (n : Nat) : String :=
  String.mk ((List.range 4).map fun i => hexChar ((n >>> ((3 - i) * 4)) &&& 15))

def escChar (c : Char) : String :=
  if c = '"' then "\\\""
  else if c = '\\' then "\\\\"
  else if c = '\n' then "\\n"
  else if c = '\t' then "\\t"
  else if c = '\r' then "\\r"
  else if c.toNat = 8 then "\\b"
  else if c.toNat = 12 then "\\f"
  else if c.toNat < 32 then "\\u" ++ hex4lower c.toNat
  else String.singleton c

def jstr (s : String) : String := "\"" ++ String.join (s.data.map escChar) ++ "\""

def jbool (b : Bool) : String := if b then "true" else "false"

def jOptStr : Option String → String
  | none => "null"
  | some s => jstr s

def insertPairSorted (x : String × String) : List (String × String) → List (String × String)
  | [] => [x]
  | y :: ys => if strLe x.1 y.1 then x :: y :: ys else y :: insertPairSorted x ys

def sortPairs (xs : List (String × String)) : List (String × String) := xs.foldr insertPairSorted []

/-- A JSON object from rendered fields, keys emitted in sorted order. -/
def jobj (fields : List (String × String)) : String :=
  "\x7b" ++
    String.intercalate "," ((sortPairs fields).map fun kv => jstr kv.1 ++ ":" ++ kv.2) ++
    "\x7d"

def jarr (xs : List String) : String := "[" ++ String.intercalate "," xs ++ "]"

def jDict (enc : α → String) (d : List (String × α)) : String :=
  jobj (d.map fun kv => (kv.1, enc kv.2))

def jUser (u : UserRec) : String :=
  jobj [("created_at", jstr u.created_at), ("password", jstr u.password)]

def jRoom (r : RoomRec) : String :=
  jobj [("created_at", jstr r.created_at), ("kind", jstr r.kind),
        ("members", jarr (r.members.map jstr))]

def jChat (c : ChatRec) : String :=
  jobj [("created_at", jstr c.created_at), ("kind", jstr c.kind),
        ("participants", jarr (c.participants.map jstr))]

def jMsg (m : Msg) : String :=
  jobj ([("kind", jstr m.kind), ("sender", jstr m.sender), ("ts", jstr m.ts)] ++
    (match m.text with | some t => [("text", jstr t)] | none => []) ++
    (match m.filename with | some f => [("filename", jstr f)] | none => []) ++
    (match m.content with | some c => [("content", jstr c)] | none => []))

/-- Serialize an invite; `key` is `"room"` or `"chat"` depending on the
bucket it sits in. -/
def jInvite (key : String) : Invite → String
  | .str t => jstr t
  | .obj tgt at' =>
    jobj ((match tgt with | some t => [(key, jstr t)] | none => []) ++
      (match at' with | some a => [("invited_at", jstr a)] | none => []))

def jBucket (b : InviteBucket) : String :=
  jobj [("chats", jarr (b.chats.map (jInvite "chat"))),
        ("rooms", jarr (b.rooms.map (jInvite "room")))]

def jStatus (s : StatusRec) : String :=
  jobj [("last_seen", jOptStr s.last_seen), ("online", jbool s.online)]

def jRawInvites (ri : RawInvites) : String :=
  jobj (match ri.users with
    | none => []
    | some us => [("users", jDict jBucket us)])

def canonicalJson (r : RawData) : String :=
  jobj (List.filterMap id
    [r.chats.map (fun v => ("chats", jDict jChat v)),
     r.invites.map (fun v => ("invites", jRawInvites v)),
     r.messages.map (fun v => ("messages", jDict (fun ms => jarr (ms.map jMsg)) v)),
     r.rooms.map (fun v => ("rooms", jDict jRoom v)),
     r.status.map (fun v => ("status", jDict jStatus v)),
     r.users.map (fun v => ("users", jDict jUser v))])

/-- `Storage._checksum_payload`. -/
def checksumPayload (r : RawData) : String := sha256hex (utf8Bytes (canonicalJson r))

/-! ### Normalization and the read path. -/

/-- The status-filling loop of `_normalize_data`: each user missing from
`status` gets `{online: False, last_seen: created_at}`. -/
def fillStatus : List (String × UserRec) → List (String × StatusRec) → List (String × StatusRec)
  | [], st => st
  | (u, info) :: rest, st =>
    fillStatus rest
      (if hasKey u st then st else st ++ [(u, { online := false, last_seen := some info.created_at })])

/-- `Storage._normalize_data`. -/
def normalizeData (raw : RawData) : Data :=
  let users := raw.users.getD []
  { users := users
    rooms := raw.rooms.getD []
    chats := raw.chats.getD []
    messages := raw.messages.getD []
    invitesUsers := ((raw.invites.getD { users := none }).users).getD []
    status := fillStatus users (raw.status.getD []) }

def Data.toRaw (d : Data) : RawData :=
  { users := some d.users, rooms := some d.rooms, chats := some d.chats,
    messages := some d.messages, invites := some { users := some d.invitesUsers },
    status := some d.status }

/-- Normalization as applied on read and before every write, restricted to
well-typed data. -/
def Data.normalize (d : Data) : Data := normalizeData d.toRaw

/-- The possible on-disk shapes: a legacy bare object, or the wrapped
`{format, version, data, checksum}` form. -/
inductive DiskFile where
  | legacy (d : RawData)
  | wrapped (format : Option String) (version : Option Int) (d : RawData) (checksum : Option String)

/-- `Storage._read`: verify the checksum of a wrapped file (skipped when
the checksum field is absent or falsy), then normalize. -/
def readData : DiskFile → Except String Data
  | .legacy r => .ok (normalizeData r)
  | .wrapped _ _ r cs =>
    match cs with
    | none => .ok (normalizeData r)
    | some c =>
      if c = "" then .ok (normalizeData r)
      else if c ≠ checksumPayload r then .error "DB.dat integrity check failed"
      else .ok (normalizeData r)

/-! ### Invite expiry (`_is_invite_expired`, `_remove_expired_invites`). -/

/-- The invite TTL (`timedelta(seconds=300)`) in microseconds. -/
def inviteTTL : Int := 300 * 1000000

/-- `Storage._is_invite_expired` at absolute time `now` (epoch µs). -/
def isInviteExpired (inv : Invite) (now : Int) : Bool :=
  match inv with
  | .str _ => false
  | .obj _ invitedAt =>
    match invitedAt with
    | none => false
    | some s =>
      if s = "" then false
      else
        match parseIso s with
        | none => false
        | some t => now - t > inviteTTL

structure Expired where
  rooms : List String
  chats : List String
deriving DecidableEq

/-- One bucket pass of `_remove_expired_invites`: the reported expired
targets (only invite objects with a truthy target are reported) and the
surviving invites. -/
def sweepList (now : Int) : List Invite → List String × List Invite
  | [] => ([], [])
  | inv :: rest =>
    let (ex, cleaned) := sweepList now rest
    if isInviteExpired inv now then
      match inv with
      | .obj (some t) _ => (if t = "" then ex else t :: ex, cleaned)
      | _ => (ex, cleaned)
    else (ex, inv :: cleaned)

/-- `Storage._remove_expired_invites`: sweeps the user's bucket (creating
it when missing) and returns the expired report with the updated data. -/
def removeExpiredInvites (d : Data) (username : String) (now : Int) : Expired × Data :=
  let invites := getOr username defaultBucket d.invitesUsers
  let sr := sweepList now invites.rooms
  let sc := sweepList now invites.chats
  ({ rooms := sr.1, chats := sc.1 },
   { d with invitesUsers := setKey username { rooms := sr.2, chats := sc.2 } d.invitesUsers })

/-! ### Storage operations.  Each function returns the method's result and
the persisted state after the call; paths that do not reach `_write`
return the input state unchanged. -/

def registerUser (nowS username password : String) (s : Data) : Bool × Data :=
  let d := s.normalize
  if hasKey username d.users then (false, s)
  else
    let d := { d with users := setKey username { password := password, created_at := nowS } d.users }
    let d := { d with invitesUsers := ensureKey username defaultBucket d.invitesUsers }
    let d := { d with status := setKey username { online := false, last_seen := some nowS } d.status }
    (true, d.normalize)

def validateLogin (username password : String) (s : Data) : Bool :=
  match alookup username s.normalize.users with
  | some u => u.password = password
  | none => false

def listUsers (s : Data) : List String := sortStrs (s.normalize.users.map (·.1))

def createRoom (nowS room owner kind : String) (s : Data) : Bool × Data :=
  let d := s.normalize
  if hasKey room d.rooms then (false, s)
  else
    let d := { d with rooms := setKey room { members := [owner], created_at := nowS, kind := kind } d.rooms }
    (true, d.normalize)

def addRoomMember (now : Int) (room username : String) (s : Data) : Bool × Data :=
  let d := s.normalize
  let (expired, d) := removeExpiredInvites d username now
  match alookup room d.rooms with
  | none =>
    if expired.rooms ≠ [] ∨ expired.chats ≠ [] then (false, d.normalize) else (false, s)
  | some roomData =>
    let members' := if username ∈ roomData.members then roomData.members else roomData.members ++ [username]
    let d := { d with rooms := setKey room { roomData with members := members' } d.rooms }
    let bucket := getOr username defaultBucket d.invitesUsers
    let bucket' :=
      if Invite.str room ∈ bucket.rooms then { bucket with rooms := bucket.rooms.erase (Invite.str room) }
      else bucket
    let d := { d with invitesUsers := setKey username bucket' d.invitesUsers }
    (true, d.normalize)

/-- The invite-scan loop shared by `invite_to_room` and `invite_to_chat`:
the first invite matching the target short-circuits, yielding its
`invited_at` for an object invite and `None` for a bare string. -/
def findTarget (t : String) : List Invite → Option (Option String)
  | [] => none
  | .obj tgt at' :: rest => if tgt = some t then some at' else findTarget t rest
  | .str u :: rest => if u = t then some none else findTarget t rest

def inviteToRoom (nowS room username : String) (s : Data) : Option String × Data :=
  let d := s.normalize
  if ¬ hasKey room d.rooms then (none, s)
  else
    let bucket := getOr username defaultBucket d.invitesUsers
    match findTarget room bucket.rooms with
    | some res => (res, s)
    | none =>
      let bucket' := { bucket with rooms := bucket.rooms ++ [Invite.obj (some room) (some nowS)] }
      let d := { d with invitesUsers := setKey username bucket' d.invitesUsers }
      (some nowS, d.normalize)

def inviteToChat (nowS username chatId : String) (s : Data) : Option String × Data :=
  let d := s.normalize
  if ¬ hasKey chatId d.chats then (none, s)
  else
    let bucket := getOr username defaultBucket d.invitesUsers
    match findTarget chatId bucket.chats with
    | some res => (res, s)
    | none =>
      let bucket' := { bucket with chats := bucket.chats ++ [Invite.obj (some chatId) (some nowS)] }
      let d := { d with invitesUsers := setKey username bucket' d.invitesUsers }
      (some nowS, d.normalize)

/-- `chat_id_for`: the two usernames sorted and joined with `:`. -/
def chatIdFor (a b : String) : String :=
  if strLe a b then a ++ ":" ++ b else b ++ ":" ++ a

def createChat (nowS userA userB kind : String) (s : Data) : String × Data :=
  let d := s.normalize
  let chatId := chatIdFor userA userB
  let d :=
    match alookup chatId d.chats with
    | none =>
      { d with chats := setKey chatId { participants := [userA], created_at := nowS, kind := kind } d.chats }
    | some chat =>
      let chat' :=
        if userA ∈ chat.participants then chat
        else { chat with participants := chat.participants ++ [userA] }
      { d with chats := setKey chatId chat' d.chats }
  (chatId, d.normalize)

def acceptChatInvite (now : Int) (username chatId : String) (s : Data) : (Bool × Bool) × Data :=
  let d := s.normalize
  let (expired, d) := removeExpiredInvites d username now
  if chatId ∈ expired.chats then ((false, true), d.normalize)
  else
    match alookup chatId d.chats with
    | none =>
      if expired.rooms ≠ [] ∨ expired.chats ≠ [] then ((false, false), d.normalize)
      else ((false, false), s)
    | some chat =>
      let chat' :=
        if username ∈ chat.participants then chat
        else { chat with participants := sortStrs ((chat.participants ++ [username]).dedup) }
      let d := { d with chats := setKey chatId chat' d.chats }
      let bucket := getOr username defaultBucket d.invitesUsers
      let bucket' :=
        if Invite.str chatId ∈ bucket.chats then { bucket with chats := bucket.chats.erase (Invite.str chatId) }
        else bucket
      let d := { d with invitesUsers := setKey username bucket' d.invitesUsers }
      ((true, false), d.normalize)

def removeRoomInvite (username room : String) (s : Data) : Bool × Data :=
  let d := s.normalize
  let bucket := getOr username defaultBucket d.invitesUsers
  let newRooms := bucket.rooms.filter fun inv =>
    match inv with
    | .str t => t ≠ room
    | .obj tgt _ => tgt ≠ some room
  if newRooms.length ≠ bucket.rooms.length then
    let d := { d with invitesUsers := setKey username { bucket with rooms := newRooms } d.invitesUsers }
    (true, d.normalize)
  else (false, s)

def removeChatInvite (username chatId : String) (s : Data) : Bool × Data :=
  let d := s.normalize
  let bucket := getOr username defaultBucket d.invitesUsers
  let newChats := bucket.chats.filter fun inv =>
    match inv with
    | .str t => t ≠ chatId
    | .obj tgt _ => tgt ≠ some chatId
  if newChats.length ≠ bucket.chats.length then
    let d := { d with invitesUsers := setKey username { bucket with chats := newChats } d.invitesUsers }
    (true, d.normalize)
  else (false, s)

def hasRoomInvite (now : Int) (username room : String) (s : Data) : (Bool × Bool) × Data :=
  let d := s.normalize
  let (expired, d) := removeExpiredInvites d username now
  let invites := ((alookup username d.invitesUsers).map (·.rooms)).getD []
  let has := invites.any fun inv =>
    match inv with
    | .obj tgt _ => tgt = some room
    | .str t => t = room
  let s' := if expired.rooms ≠ [] ∨ expired.chats ≠ [] then d.normalize else s
  ((has, room ∈ expired.rooms), s')

def hasChatInvite (now : Int) (username chatId : String) (s : Data) : (Bool × Bool) × Data :=
  let d := s.normalize
  let (expired, d) := removeExpiredInvites d username now
  let invites := ((alookup username d.invitesUsers).map (·.chats)).getD []
  let has := invites.any fun inv =>
    match inv with
    | .obj tgt _ => tgt = some chatId
    | .str t => t = chatId
  let s' := if expired.rooms ≠ [] ∨ expired.chats ≠ [] then d.normalize else s
  ((has, chatId ∈ expired.chats), s')

def cleanupExpiredInvites (now : Int) (username : String) (s : Data) : Expired × Data :=
  let d := s.normalize
  let (expired, d) := removeExpiredInvites d username now
  let s' := if expired.rooms ≠ [] ∨ expired.chats ≠ [] then d.normalize else s
  (expired, s')

structure MsgPayload where
  kind : String
  text : Option String
  filename : Option String
  content : Option String
deriving DecidableEq

def addMessage (nowS target sender : String) (p : MsgPayload) (s : Data) : Data :=
  let d := s.normalize
  let msgs := getOr target [] d.messages
  let msg : Msg :=
    { sender := sender, ts := nowS, kind := p.kind,
      text := p.text, filename := p.filename, content := p.content }
  let d := { d with messages := setKey target (msgs ++ [msg]) d.messages }
  d.normalize

def setStatus (nowS username : String) (online : Bool) (lastSeen : Option String) (s : Data) : Data :=
  let d := s.normalize
  let newLs :=
    match lastSeen with
    | some ls => if ls = "" then nowS else ls
    | none => nowS
  let d := { d with status := setKey username { online := online, last_seen := some newLs } d.status }
  d.normalize

def setStatuses (sts : List (String × StatusRec)) (s : Data) : Data :=
  ({ s.normalize with status := sts }).normalize

def listMessages (target : String) (limit : Option Int) (s : Data) : List Msg :=
  let msgs := getOr target [] s.normalize.messages
  match limit with
  | none => msgs
  | some l =>
    let a : Int := -l
    let n : Int := msgs.length
    let start : Int := if a < 0 then max (n + a) 0 else min a n
    msgs.drop start.toNat

def roomExists (room : String) (s : Data) : Bool := hasKey room s.normalize.rooms

def chatExists (chatId : String) (s : Data) : Bool := hasKey chatId s.normalize.chats

def roomHasMember (room username : String) (s : Data) : Bool :=
  match alookup room s.normalize.rooms with
  | some r => username ∈ r.members
  | none => false

def chatHasMember (chatId username : String) (s : Data) : Bool :=
  match alookup chatId s.normalize.chats with
  | some c => username ∈ c.participants
  | none => false

def getRoomMembers (room : String) (s : Data) : List String :=
  sortStrs (((alookup room s.normalize.rooms).map (·.members)).getD [])

def getChatMembers (chatId : String) (s : Data) : List String :=
  sortStrs (((alookup chatId s.normalize.chats).map (·.participants)).getD [])

/-! ### Media gateway (`broadcast_media`, `handle_media_client`). -/

/-- `pre` is an initial run of `s` (model of `str.startswith`). -/
def listStarts : List Char → List Char → Bool
  | [], _ => true
  | _ :: _, [] => false
  | p :: ps, c :: cs => if p = c then listStarts ps cs else false

def strStarts (s pre : String) : Bool := listStarts pre.data s.data

/-- Drop the first `n` characters (model of `s.split(":", 1)[1]` once the
5-character marker is known present). -/
def strDropChars (n : Nat) (s : String) : String := String.mk (s.data.drop n)

structure MediaPayload where
  action : String
  fromUser : String
  target : String
  payload : String
deriving DecidableEq

/-- `broadcast_media`: the sequence of (recipient, frame) writes issued,
one per recipient that is not the sender and has a media session. -/
def broadcastMedia (recipients : List String) (sender : String)
    (mediaSessions : List String) (p : MediaPayload) : List (String × MediaPayload) :=
  recipients.filterMap fun u =>
    if u = sender then none
    else if u ∈ mediaSessions then some (u, p) else none

/-- The `voice_chunk` branch of `handle_media_client` for an authenticated
user: authorization then fan-out; the result is the list of writes. -/
def handleVoiceChunk (username target audio : String) (s : Data)
    (mediaSessions : List String) : Except String (List (String × MediaPayload)) :=
  if target = "" ∨ audio = "" then .error "missing_payload"
  else if strStarts target "room:" then
    let room := strDropChars 5 target
    if ¬ roomHasMember room username s then .error "not_room_member"
    else .ok (broadcastMedia (getRoomMembers room s) username mediaSessions
      { action := "voice_chunk", fromUser := username, target := target, payload := audio })
  else if strStarts target "chat:" then
    let chat := strDropChars 5 target
    if ¬ chatHasMember chat username s then .error "not_chat_member"
    else .ok (broadcastMedia (getChatMembers chat s) username mediaSessions
      { action := "voice_chunk", fromUser := username, target := target, payload := audio })
  else .error "unknown_target"

/-- The `screen_frame` branch of `handle_media_client`. -/
def handleScreenFrame (username target frame : String) (s : Data)
    (mediaSessions : List String) : Except String (List (String × MediaPayload)) :=
  if target = "" ∨ frame = "" then .error "missing_payload"
  else if strStarts target "room:" then
    let room := strDropChars 5 target
    if ¬ roomHasMember room username s then .error "not_room_member"
    else .ok (broadcastMedia (getRoomMembers room s) username mediaSessions
      { action := "screen_frame", fromUser := username, target := target, payload := frame })
  else if strStarts target "chat:" then
    let chat := strDropChars 5 target
    if ¬ chatHasMember chat username s then .error "not_chat_member"
    else .ok (broadcastMedia (getChatMembers chat s) username mediaSessions
      { action := "screen_frame", fromUser := username, target := target, payload := frame })
  else .error "unknown_target"

/-! ### The state-changing storage interface as a single step type (the
read-only operations leave the persisted state untouched). -/

inductive Op where
  | registerOp (nowS username password : String)
  | createRoomOp (nowS room owner kind : String)
  | addRoomMemberOp (now : Int) (room username : String)
  | inviteToRoomOp (nowS room username : String)
  | inviteToChatOp (nowS username chatId : String)
  | createChatOp (nowS userA userB kind : String)
  | acceptChatInviteOp (now : Int) (username chatId : String)
  | removeRoomInviteOp (username room : String)
  | removeChatInviteOp (username chatId : String)
  | hasRoomInviteOp (now : Int) (username room : String)
  | hasChatInviteOp (now : Int) (username chatId : String)
  | cleanupOp (now : Int) (username : String)
  | addMessageOp (nowS target sender : String) (p : MsgPayload)
  | setStatusOp (nowS username : String) (online : Bool) (lastSeen : Option String)
  | setStatusesOp (sts : List (String × StatusRec))
deriving DecidableEq

def applyOp (op : Op) (s : Data) : Data :=
  match op with
  | .registerOp nowS u pw => (registerUser nowS u pw s).2
  | .createRoomOp nowS r o k => (createRoom nowS r o k s).2
  | .addRoomMemberOp now r u => (addRoomMember now r u s).2
  | .inviteToRoomOp nowS r u => (inviteToRoom nowS r u s).2
  | .inviteToChatOp nowS u c => (inviteToChat nowS u c s).2
  | .createChatOp nowS a b k => (createChat nowS a b k s).2
  | .acceptChatInviteOp now u c => (acceptChatInvite now u c s).2
  | .removeRoomInviteOp u r => (removeRoomInvite u r s).2
  | .removeChatInviteOp u c => (removeChatInvite u c s).2
  | .hasRoomInviteOp now u r => (hasRoomInvite now u r s).2
  | .hasChatInviteOp now u c => (hasChatInvite now u c s).2
  | .cleanupOp now u => (cleanupExpiredInvites now u s).2
  | .addMessageOp nowS t snd p => addMessage nowS t snd p s
  | .setStatusOp nowS u onl ls => setStatus nowS u onl ls s
  | .setStatusesOp sts => setStatuses sts s

def applyOps (ops : List Op) (s : Data) : Data := ops.foldl (fun s op => applyOp op s) s

def emptyData : Data :=
  { users := [], rooms := [], chats := [], messages := [], invitesUsers := [], status := [] }

/-! ### Helper lemmas about the dict model. -/

theorem alookup_setKey (k k' : String) (v : α) (l : List (String × α)) :
    alookup k (setKey k' v l) = if k' = k then some v else alookup k l := by
  induction l with
  | nil => simp [setKey, alookup]
  | cons p rest ih =>
    obtain ⟨a, b⟩ := p
    by_cases ha : a = k'
    · subst ha
      by_cases hk : a = k <;> simp [setKey, alookup, hk]
    · by_cases hk : a = k
      · subst hk
        have : ¬ k' = a := fun h => ha h.symm
        simp [setKey, alookup, ha, this]
      · simp [setKey, alookup, ha, hk, ih]

theorem alookup_append_some (k : String) (v : α) (l₁ l₂ : List (String × α))
    (h : alookup k l₁ = some v) : alookup k (l₁ ++ l₂) = some v := by
  induction l₁ with
  | nil => simp [alookup] at h
  | cons p rest ih =>
    obtain ⟨a, b⟩ := p
    by_cases ha : a = k
    · simpa [alookup, ha] using h
    · simp [alookup, ha] at h ⊢
      exact ih h

theorem alookup_append_none (k : String) (l₁ l₂ : List (String × α))
    (h : alookup k l₁ = none) : alookup k (l₁ ++ l₂) = alookup k l₂ := by
  induction l₁ with
  | nil => simp
  | cons p rest ih =>
    obtain ⟨a, b⟩ := p
    by_cases ha : a = k
    · simp [alookup, ha] at h
    · simp [alookup, ha] at h ⊢
      exact ih h

theorem hasKey_append_left (k : String) (l₁ l₂ : List (String × α))
    (h : hasKey k l₁ = true) : hasKey k (l₁ ++ l₂) = true := by
  unfold hasKey at h ⊢
  obtain ⟨v, hv⟩ := Option.isSome_iff_exists.mp h
  simp [alookup_append_some k v l₁ l₂ hv]

@[simp] theorem normalize_users (d : Data) : d.normalize.users = d.users := rfl
@[simp] theorem normalize_rooms (d : Data) : d.normalize.rooms = d.rooms := rfl
@[simp] theorem normalize_chats (d : Data) : d.normalize.chats = d.chats := rfl
@[simp] theorem normalize_messages (d : Data) : d.normalize.messages = d.messages := rfl
@[simp] theorem normalize_invites (d : Data) : d.normalize.invitesUsers = d.invitesUsers := rfl

theorem normalize_status (d : Data) : d.normalize.status = fillStatus d.users d.status := rfl

theorem hasKey_fillStatus_mono (users : List (String × UserRec)) (st : List (String × StatusRec))
    (u : String) (h : hasKey u st = true) : hasKey u (fillStatus users st) = true := by
  induction users generalizing st with
  | nil => exact h
  | cons p rest ih =>
    obtain ⟨a, info⟩ := p
    by_cases hs : hasKey a st = true
    · simpa [fillStatus, hs] using ih st h
    · simp only [fillStatus, hs, if_false]
      exact ih _ (hasKey_append_left u st _ h)

theorem hasKey_fillStatus_user (users : List (String × UserRec)) (st : List (String × StatusRec))
    (u : String) (h : hasKey u users = true) : hasKey u (fillStatus users st) = true := by
  induction users generalizing st with
  | nil => simp [hasKey, alookup] at h
  | cons p rest ih =>
    obtain ⟨a, info⟩ := p
    by_cases ha : a = u
    · subst ha
      have hst : hasKey a (if hasKey a st then st
          else st ++ [(a, { online := false, last_seen := some info.created_at })]) = true := by
        by_cases hs : hasKey a st = true
        · simp [hs]
        · simp only [hs, if_false]
          have : alookup a (st ++ [(a, ({ online := false, last_seen := some info.created_at } : StatusRec))]) =
              some { online := false, last_seen := some info.created_at } := by
            have hnone : alookup a st = none := by
              cases hval : alookup a st with
              | none => rfl
              | some v => simp [hasKey, hval] at hs
            rw [alookup_append_none a st _ hnone]
            simp [alookup]
          simp [hasKey, this]
      simpa [fillStatus] using hasKey_fillStatus_mono rest _ a hst
    · have h' : hasKey u rest = true := by
        simpa [hasKey, alookup, ha] using h
      simpa [fillStatus] using ih _ h'

/-! ### C3 -/

/-- C3: loading a wrapped file with a non-empty checksum succeeds exactly
when the checksum equals the SHA-256 of the canonical JSON of the data;
any change of the data that leaves the stored checksum with a different
digest makes the load fail loudly. -/
theorem C3_wrapped_load_checks_integrity (fmt : Option String) (v : Option Int)
    (r : RawData) (c : String) (hc : c ≠ "") :
    ((∃ e, readData (DiskFile.wrapped fmt v r (some c)) = Except.error e) ↔
      c ≠ checksumPayload r) ∧
    (∀ r', c = checksumPayload r → checksumPayload r' ≠ c →
      readData (DiskFile.wrapped fmt v r' (some c)) = Except.error "DB.dat integrity check failed") := by
  constructor
  · by_cases h : c = checksumPayload r
    · simp [readData, hc, h]
    · simp [readData, hc, h]
  · intro r' hcr hne
    have h' : c ≠ checksumPayload r' := fun h => hne h.symm
    simp [readData, hc, h']

def c3Raw : RawData :=
  { users := none, rooms := none, chats := none, messages := none, invites := none, status := none }

theorem C3_wrapped_load_checks_integrity_witness :
    ∃ e, readData (DiskFile.wrapped (some "rcord-db") (some 1) c3Raw (some "00")) = Except.error e :=
  (C3_wrapped_load_checks_integrity (some "rcord-db") (some 1) c3Raw "00" (by decide)).1.mpr (by decide)

/-! ### C4 -/

def c4State : Data :=
  { emptyData with
    rooms := [("r", { members := ["a"], created_at := "t", kind := "text" })],
    invitesUsers := [("b", { rooms := [Invite.str "r"], chats := [] })] }

/-- C4 counterexample: room `r` exists, yet `invite_to_room` returns null,
because the user's pending invite for it is a legacy bare string. -/
theorem C4_counterexample_bare_invite_null :
    roomExists "r" c4State = true ∧ (inviteToRoom "t2" "r" "b" c4State).1 = none := by decide

/-- C4 (amended): `invite_to_room` returns null when the room is missing,
and also when the first pending invite for the room is a legacy bare
string or an invite object without a stored `invited_at`; a pending invite
object's stored `invited_at` is returned as is without any write, and only
when no pending invite exists is a fresh invite appended and the new
timestamp returned. -/
theorem C4_invite_to_room (nowS room username : String) (s : Data) :
    (hasKey room s.rooms = false → inviteToRoom nowS room username s = (none, s)) ∧
    (hasKey room s.rooms = true →
      (∀ res, findTarget room (getOr username defaultBucket s.invitesUsers).rooms = some res →
        inviteToRoom nowS room username s = (res, s)) ∧
      (findTarget room (getOr username defaultBucket s.invitesUsers).rooms = none →
        (inviteToRoom nowS room username s).1 = some nowS ∧
        alookup username (inviteToRoom nowS room username s).2.invitesUsers =
          some { getOr username defaultBucket s.invitesUsers with
                 rooms := (getOr username defaultBucket s.invitesUsers).rooms ++
                   [Invite.obj (some room) (some nowS)] })) := by
  refine ⟨fun h => ?_, fun h => ⟨fun res hres => ?_, fun hnone => ?_⟩⟩
  · simp [inviteToRoom, h]
  · simp [inviteToRoom, h, hres]
  · refine ⟨by simp [inviteToRoom, h, hnone], ?_⟩
    simp [inviteToRoom, h, hnone, alookup_setKey]

def c4FreshState : Data :=
  { emptyData with rooms := [("r", { members := ["a"], created_at := "t", kind := "text" })] }

theorem C4_invite_to_room_witness :
    inviteToRoom "t9" "r" "b" c4State = (none, c4State) ∧
    (inviteToRoom "t9" "r" "b" c4FreshState).1 = some "t9" := by
  constructor
  · exact ((C4_invite_to_room "t9" "r" "b" c4State).2 (by decide)).1 none (by decide)
  · exact (((C4_invite_to_room "t9" "r" "b" c4FreshState).2 (by decide)).2 (by decide)).1

/-! ### C6 -/

def c6Raw : RawData :=
  { users := some [("a", { password := "p", created_at := "t" })],
    rooms := none, chats := none, messages := none,
    invites := some { users := some [] }, status := none }

/-- C6 counterexample: after normalization user `a` is present and has a
status entry, but normalization did not create an invites bucket for it
(buckets are only created lazily by the operations' `setdefault`). -/
theorem C6_counterexample_no_invite_bucket :
    hasKey "a" (normalizeData c6Raw).users = true ∧
    alookup "a" (normalizeData c6Raw).invitesUsers = none ∧
    hasKey "a" (normalizeData c6Raw).status = true := by decide

/-- C6 (amended): normalization on read fills each missing top-level
collection with its default and gives every user a status entry; it does
not touch the per-user invite buckets. -/
theorem C6_normalization_defaults (raw : RawData) :
    (normalizeData raw).users = raw.users.getD [] ∧
    (normalizeData raw).rooms = raw.rooms.getD [] ∧
    (normalizeData raw).chats = raw.chats.getD [] ∧
    (normalizeData raw).messages = raw.messages.getD [] ∧
    (normalizeData raw).invitesUsers = ((raw.invites.getD { users := none }).users).getD [] ∧
    (normalizeData raw).status = fillStatus (raw.users.getD []) (raw.status.getD []) ∧
    (∀ u, hasKey u (normalizeData raw).users = true → hasKey u (normalizeData raw).status = true) := by
  refine ⟨rfl, rfl, rfl, rfl, rfl, rfl, fun u hu => ?_⟩
  exact hasKey_fillStatus_user _ _ u hu

theorem C6_normalization_defaults_witness :
    hasKey "a" (normalizeData c6Raw).status = true :=
  (C6_normalization_defaults c6Raw).2.2.2.2.2.2 "a" (by decide)

/-! ### C9 -/

def c9Msg : Msg :=
  { sender := "a", ts := "t", kind := "text", text := some "m1", filename := none, content := none }

def c9State : Data := { emptyData with messages := [("room:r", [c9Msg])] }

/-- C9 counterexample: with limit `0` the slice `messages[-0:]` is the full
history, not the last zero entries. -/
theorem C9_counterexample_limit_zero :
    listMessages "room:r" (some 0) c9State = [c9Msg] ∧ ([c9Msg] : List Msg) ≠ [] := by decide

/-- C9 (amended): with no limit the full history is returned, and for
every limit `n ≥ 1` exactly the last `n` entries are returned (all of them
when fewer exist); limit `0` falls outside this and yields the full
history. -/
theorem C9_list_messages (target : String) (s : Data) :
    listMessages target none s = getOr target [] s.normalize.messages ∧
    (∀ n : Int, 1 ≤ n →
      listMessages target (some n) s =
        (getOr target [] s.normalize.messages).drop
          ((getOr target [] s.normalize.messages).length - n.toNat)) := by
  constructor
  · rfl
  · intro n hn
    simp only [listMessages]
    have hlt : -n < 0 := by omega
    simp only [hlt, if_true]
    congr 1
    omega

theorem C9_list_messages_witness :
    listMessages "room:r" (some 1) c9State =
      (getOr "room:r" [] c9State.normalize.messages).drop
        ((getOr "room:r" [] c9State.normalize.messages).length - (1 : Int).toNat) :=
  (C9_list_messages "room:r" c9State).2 1 (by decide)

/-! ### C5 -/

theorem parseIso_empty : parseIso "" = none := rfl

/-- C5: the expiry sweep drops an invite exactly when it is an invite
object whose `invited_at` parses as ISO-8601 (naive read as UTC) and lies
strictly more than 300 seconds before `now`; bare-string invites never
expire and never appear in the expired report (which lists only object
invites with a truthy target). -/
theorem C5_expiry_sweep (now : Int) :
    (∀ inv, isInviteExpired inv now = true ↔
      ∃ tgt ts t, inv = Invite.obj tgt (some ts) ∧ parseIso ts = some t ∧
        now - t > 300 * 1000000) ∧
    (∀ invs, (sweepList now invs).2 = invs.filter (fun i => ¬ isInviteExpired i now)) ∧
    (∀ invs, (sweepList now invs).1 =
      (invs.filter (fun i => isInviteExpired i now)).filterMap (fun i =>
        match i with
        | Invite.obj (some t) _ => if t = "" then none else some t
        | _ => none)) ∧
    (∀ t, isInviteExpired (Invite.str t) now = false) := by
  have hexp : ∀ inv, isInviteExpired inv now = true ↔
      ∃ tgt ts t, inv = Invite.obj tgt (some ts) ∧ parseIso ts = some t ∧
        now - t > 300 * 1000000 := by
    intro inv
    cases inv with
    | str u => simp [isInviteExpired]
    | obj tgt at' =>
      cases at' with
      | none => simp [isInviteExpired]
      | some ts =>
        by_cases hts : ts = ""
        · subst hts
          simp [isInviteExpired, parseIso_empty]
        · cases hp : parseIso ts with
          | none => simp [isInviteExpired, hts, hp]
          | some t =>
            simp only [isInviteExpired, hts, if_false, hp]
            constructor
            · intro hgt
              exact ⟨tgt, ts, t, rfl, hp, by simpa [inviteTTL] using of_decide_eq_true hgt⟩
            · rintro ⟨tgt', ts', t', heq, hp', hgt⟩
              cases heq
              rw [hp] at hp'
              cases hp'
              exact decide_eq_true (by simpa [inviteTTL] using hgt)
  refine ⟨hexp, fun invs => ?_, fun invs => ?_, fun t => by simp [isInviteExpired]⟩
  · induction invs with
    | nil => rfl
    | cons inv rest ih =>
      by_cases he : isInviteExpired inv now = true
      · cases inv with
        | str u => simp [isInviteExpired] at he
        | obj tgt at' =>
          cases tgt <;> simp [sweepList, he, ih]
      · have he' : isInviteExpired inv now = false := by
          cases hval : isInviteExpired inv now with
          | false => rfl
          | true => exact absurd hval he
        simp [sweepList, he', ih]
  · induction invs with
    | nil => rfl
    | cons inv rest ih =>
      by_cases he : isInviteExpired inv now = true
      · cases inv with
        | str u => simp [isInviteExpired] at he
        | obj tgt at' =>
          cases tgt with
          | none => simp [sweepList, he, ih]
          | some t =>
            by_cases ht : t = ""
            · subst ht
              simp [sweepList, he, ih]
            · simp [sweepList, he, ih, ht]
      · have he' : isInviteExpired inv now = false := by
          cases hval : isInviteExpired inv now with
          | false => rfl
          | true => exact absurd hval he
        simp [sweepList, he', ih]

theorem C5_expiry_sweep_witness :
    isInviteExpired (Invite.obj (some "r") (some "2024-01-01T00:00:00+00:00"))
      (1704067200000000 + 301 * 1000000) = true :=
  (C5_expiry_sweep (1704067200000000 + 301 * 1000000)).1
    (Invite.obj (some "r") (some "2024-01-01T00:00:00+00:00")) |>.mpr
    ⟨some "r", "2024-01-01T00:00:00+00:00", 1704067200000000, rfl, by decide, by decide⟩

/-! ### C10 -/

/-- C10: on the failure paths — user already registered, room name already
taken, pending duplicate invite — no write happens and the persisted state
is exactly the pre-call state. -/
theorem C10_failed_mutations_do_not_write (nowS username password room owner kind : String)
    (s : Data) :
    (hasKey username s.users = true → registerUser nowS username password s = (false, s)) ∧
    (hasKey room s.rooms = true → createRoom nowS room owner kind s = (false, s)) ∧
    (hasKey room s.rooms = true →
      ∀ res, findTarget room (getOr username defaultBucket s.invitesUsers).rooms = some res →
        inviteToRoom nowS room username s = (res, s)) ∧
    (hasKey room s.rooms = false → inviteToRoom nowS room username s = (none, s)) := by
  refine ⟨fun h => ?_, fun h => ?_, fun h res hres => ?_, fun h => ?_⟩
  · simp [registerUser, h]
  · simp [createRoom, h]
  · simp [inviteToRoom, h, hres]
  · simp [inviteToRoom, h]

def c10State : Data :=
  { emptyData with users := [("a", { password := "p", created_at := "t" })] }

theorem C10_failed_mutations_do_not_write_witness :
    registerUser "t2" "a" "q" c10State = (false, c10State) :=
  (C10_failed_mutations_do_not_write "t2" "a" "q" "r" "o" "text" c10State).1 (by decide)

/-! ### C8 -/

theorem broadcast_mem (recipients : List String) (sender : String) (ms : List String)
    (p : MediaPayload) (u : String) (q : MediaPayload) :
    (u, q) ∈ broadcastMedia recipients sender ms p ↔
      u ≠ sender ∧ u ∈ recipients ∧ u ∈ ms ∧ q = p := by
  unfold broadcastMedia
  rw [List.mem_filterMap]
  constructor
  · rintro ⟨a, ha, hfa⟩
    by_cases h1 : a = sender
    · simp [h1] at hfa
    · by_cases h2 : a ∈ ms
      · simp only [h1, if_false, h2, if_true, Option.some.injEq, Prod.mk.injEq] at hfa
        obtain ⟨rfl, rfl⟩ := hfa
        exact ⟨h1, ha, h2, rfl⟩
      · simp [h1, h2] at hfa
  · rintro ⟨hns, hmem, hms, rfl⟩
    exact ⟨u, hmem, by simp [hns, hms]⟩

theorem broadcast_nodup (recipients : List String) (sender : String) (ms : List String)
    (p : MediaPayload) (hnd : recipients.Nodup) :
    (broadcastMedia recipients sender ms p).Nodup := by
  unfold broadcastMedia
  refine List.Nodup.filterMap (fun a a' b hb hb' => ?_) hnd
  have key : ∀ x : String, b ∈ (if x = sender then none
      else if x ∈ ms then some (x, p) else none) → x = b.1 := by
    intro x hx
    by_cases h1 : x = sender
    · simp [h1] at hx
    · by_cases h2 : x ∈ ms
      · simp only [h1, if_false, h2, if_true, Option.mem_def, Option.some.injEq] at hx
        rw [← hx]
      · simp [h1, h2] at hx
  rw [key a hb, key a' hb']

/-- Occurrence count of an element (the number of copies written). -/
def countOcc [DecidableEq α] (a : α) : List α → Nat
  | [] => 0
  | b :: rest => (if b = a then 1 else 0) + countOcc a rest

theorem countOcc_eq_of_nodup [DecidableEq α] (a : α) (l : List α) (h : l.Nodup) :
    countOcc a l = if a ∈ l then 1 else 0 := by
  induction l with
  | nil => simp [countOcc]
  | cons b rest ih =>
    obtain ⟨hb, hrest⟩ := List.nodup_cons.mp h
    by_cases hba : b = a
    · subst hba
      simp [countOcc, ih hrest, hb]
    · simp [countOcc, hba, ih hrest, Ne.symm hba]

theorem broadcast_count (recipients : List String) (sender u : String) (ms : List String)
    (p : MediaPayload) (hnd : recipients.Nodup) :
    countOcc (u, p) (broadcastMedia recipients sender ms p) =
      if u ≠ sender ∧ u ∈ recipients ∧ u ∈ ms then 1 else 0 := by
  rw [countOcc_eq_of_nodup _ _ (broadcast_nodup recipients sender ms p hnd)]
  have hiff : ((u, p) ∈ broadcastMedia recipients sender ms p) ↔
      (u ≠ sender ∧ u ∈ recipients ∧ u ∈ ms) := by
    rw [broadcast_mem]
    simp
  simp only [hiff]

theorem insertSorted_perm (x : String) (l : List String) :
    List.Perm (insertSorted x l) (x :: l) := by
  induction l with
  | nil => exact List.Perm.refl _
  | cons y ys ih =>
    by_cases h : strLe x y = true
    · simp [insertSorted, h]
    · have h' : strLe x y = false := by
        cases hv : strLe x y with
        | false => rfl
        | true => exact absurd hv h
      simp only [insertSorted, h', if_false]
      exact (ih.cons y).trans (List.Perm.swap x y ys)

theorem sortStrs_perm (l : List String) : List.Perm (sortStrs l) l := by
  induction l with
  | nil => exact List.Perm.refl _
  | cons y ys ih =>
    exact (insertSorted_perm y (sortStrs ys)).trans (ih.cons y)

/-- The broadcast contract of one authorized media frame: every member of
the target except the sender that has a media session receives the frame
exactly once; the sender receives nothing; nothing else is written. -/
def fanoutOk (res : Except String (List (String × MediaPayload))) (membersOf : List String)
    (sender : String) (ms : List String) (p : MediaPayload) : Prop :=
  ∃ writes, res = Except.ok writes ∧
    (∀ u, countOcc (u, p) writes = if u ≠ sender ∧ u ∈ membersOf ∧ u ∈ ms then 1 else 0) ∧
    (∀ u q, (u, q) ∈ writes → q = p ∧ u ≠ sender ∧ u ∈ membersOf ∧ u ∈ ms) ∧
    (∀ q, (sender, q) ∉ writes)

theorem fanout_of_broadcast (members : List String) (sender : String) (ms : List String)
    (p : MediaPayload) (hnd : members.Nodup) :
    fanoutOk (Except.ok (broadcastMedia (sortStrs members) sender ms p)) members sender ms p := by
  refine ⟨broadcastMedia (sortStrs members) sender ms p, rfl, fun u => ?_, fun u q hq => ?_, fun q hq => ?_⟩
  · rw [broadcast_count (sortStrs members) sender u ms p
      ((sortStrs_perm members).nodup_iff.mpr hnd)]
    simp [(sortStrs_perm members).mem_iff]
  · have h := (broadcast_mem _ sender ms p u q).mp hq
    rw [(sortStrs_perm members).mem_iff] at h
    exact ⟨h.2.2.2, h.1, h.2.1, h.2.2.1⟩
  · have h := (broadcast_mem _ sender ms p sender q).mp hq
    exact h.1 rfl

/-- C8: an authorized `voice_chunk` or `screen_frame` frame whose sender is
a member of the parsed `room:`/`chat:` target is written exactly once, as
`{action, from, target, payload}`, to the media writer of every co-member
that has a media session, and never to the sender. -/
theorem C8_media_frame_fanout (username target : String) (s : Data) (ms : List String) :
    (∀ room rec audio, target ≠ "" → audio ≠ "" →
      strStarts target "room:" = true → strDropChars 5 target = room →
      alookup room s.rooms = some rec → rec.members.Nodup → username ∈ rec.members →
      fanoutOk (handleVoiceChunk username target audio s ms) rec.members username ms
        { action := "voice_chunk", fromUser := username, target := target, payload := audio } ∧
      fanoutOk (handleScreenFrame username target audio s ms) rec.members username ms
        { action := "screen_frame", fromUser := username, target := target, payload := audio }) ∧
    (∀ chat rec audio, target ≠ "" → audio ≠ "" →
      strStarts target "room:" = false → strStarts target "chat:" = true →
      strDropChars 5 target = chat →
      alookup chat s.chats = some rec → rec.participants.Nodup → username ∈ rec.participants →
      fanoutOk (handleVoiceChunk username target audio s ms) rec.participants username ms
        { action := "voice_chunk", fromUser := username, target := target, payload := audio } ∧
      fanoutOk (handleScreenFrame username target audio s ms) rec.participants username ms
        { action := "screen_frame", fromUser := username, target := target, payload := audio }) := by
  constructor
  · intro room rec audio hne haud hsw hdrop hroom hnd hmem
    have hhm : roomHasMember room username s = true := by
      simp [roomHasMember, hroom, hmem]
    constructor
    · have hh : handleVoiceChunk username target audio s ms =
          Except.ok (broadcastMedia (sortStrs rec.members) username ms
            { action := "voice_chunk", fromUser := username, target := target, payload := audio }) := by
        simp [handleVoiceChunk, hne, haud, hsw, hdrop, hhm, getRoomMembers, hroom, sortStrs]
      rw [hh]
      exact fanout_of_broadcast rec.members username ms _ hnd
    · have hh : handleScreenFrame username target audio s ms =
          Except.ok (broadcastMedia (sortStrs rec.members) username ms
            { action := "screen_frame", fromUser := username, target := target, payload := audio }) := by
        simp [handleScreenFrame, hne, haud, hsw, hdrop, hhm, getRoomMembers, hroom, sortStrs]
      rw [hh]
      exact fanout_of_broadcast rec.members username ms _ hnd
  · intro chat rec audio hne haud hswr hswc hdrop hchat hnd hmem
    have hhm : chatHasMember chat username s = true := by
      simp [chatHasMember, hchat, hmem]
    constructor
    · have hh : handleVoiceChunk username target audio s ms =
          Except.ok (broadcastMedia (sortStrs rec.participants) username ms
            { action := "voice_chunk", fromUser := username, target := target, payload := audio }) := by
        simp [handleVoiceChunk, hne, haud, hswr, hswc, hdrop, hhm, getChatMembers, hchat, sortStrs]
      rw [hh]
      exact fanout_of_broadcast rec.participants username ms _ hnd
    · have hh : handleScreenFrame username target audio s ms =
          Except.ok (broadcastMedia (sortStrs rec.participants) username ms
            { action := "screen_frame", fromUser := username, target := target, payload := audio }) := by
        simp [handleScreenFrame, hne, haud, hswr, hswc, hdrop, hhm, getChatMembers, hchat, sortStrs]
      rw [hh]
      exact fanout_of_broadcast rec.participants username ms _ hnd

def c8State : Data :=
  { emptyData with
    rooms := [("vc", { members := ["alice", "bob", "carol"], created_at := "t", kind := "voice" })] }

theorem C8_media_frame_fanout_witness :
    fanoutOk (handleVoiceChunk "alice" "room:vc" "AAAA" c8State ["alice", "bob", "carol"])
      ["alice", "bob", "carol"] "alice" ["alice", "bob", "carol"]
      { action := "voice_chunk", fromUser := "alice", target := "room:vc", payload := "AAAA" } :=
  ((C8_media_frame_fanout "alice" "room:vc" c8State ["alice", "bob", "carol"]).1
    "vc" { members := ["alice", "bob", "carol"], created_at := "t", kind := "voice" } "AAAA"
    (by decide) (by decide) (by decide) (by decide) (by decide) (by decide) (by decide)).1

/-! ### C7 -/

@[simp] theorem removeExpired_rooms (d : Data) (u : String) (now : Int) :
    (removeExpiredInvites d u now).2.rooms = d.rooms := rfl

theorem registerUser_rooms (nowS u pw : String) (s : Data) :
    (registerUser nowS u pw s).2.rooms = s.rooms := by
  simp only [registerUser]
  split <;> rfl

theorem inviteToRoom_rooms (nowS r u : String) (s : Data) :
    (inviteToRoom nowS r u s).2.rooms = s.rooms := by
  simp only [inviteToRoom]
  split
  · rfl
  · split <;> rfl

theorem inviteToChat_rooms (nowS u c : String) (s : Data) :
    (inviteToChat nowS u c s).2.rooms = s.rooms := by
  simp only [inviteToChat]
  split
  · rfl
  · split <;> rfl

theorem createChat_rooms (nowS a b k : String) (s : Data) :
    (createChat nowS a b k s).2.rooms = s.rooms := by
  simp only [createChat]
  split <;> rfl

theorem acceptChatInvite_rooms (now : Int) (u c : String) (s : Data) :
    (acceptChatInvite now u c s).2.rooms = s.rooms := by
  simp only [acceptChatInvite, removeExpiredInvites]
  split
  · rfl
  · split
    · split <;> rfl
    · rfl

theorem removeRoomInvite_rooms (u r : String) (s : Data) :
    (removeRoomInvite u r s).2.rooms = s.rooms := by
  simp only [removeRoomInvite]
  split <;> rfl

theorem removeChatInvite_rooms (u c : String) (s : Data) :
    (removeChatInvite u c s).2.rooms = s.rooms := by
  simp only [removeChatInvite]
  split <;> rfl

theorem hasRoomInvite_rooms (now : Int) (u r : String) (s : Data) :
    (hasRoomInvite now u r s).2.rooms = s.rooms := by
  simp only [hasRoomInvite, removeExpiredInvites]
  split <;> rfl

theorem hasChatInvite_rooms (now : Int) (u c : String) (s : Data) :
    (hasChatInvite now u c s).2.rooms = s.rooms := by
  simp only [hasChatInvite, removeExpiredInvites]
  split <;> rfl

theorem cleanupExpiredInvites_rooms (now : Int) (u : String) (s : Data) :
    (cleanupExpiredInvites now u s).2.rooms = s.rooms := by
  simp only [cleanupExpiredInvites, removeExpiredInvites]
  split <;> rfl

theorem addMessage_rooms (nowS t snd : String) (p : MsgPayload) (s : Data) :
    (addMessage nowS t snd p s).rooms = s.rooms := rfl

theorem setStatus_rooms (nowS u : String) (onl : Bool) (ls : Option String) (s : Data) :
    (setStatus nowS u onl ls s).rooms = s.rooms := rfl

theorem setStatuses_rooms (sts : List (String × StatusRec)) (s : Data) :
    (setStatuses sts s).rooms = s.rooms := rfl

theorem createRoom_rooms_eq (nowS r o k : String) (s : Data) :
    (createRoom nowS r o k s).2.rooms = s.rooms ∨
    (hasKey r s.rooms = false ∧
      (createRoom nowS r o k s).2.rooms =
        setKey r { members := [o], created_at := nowS, kind := k } s.rooms) := by
  by_cases h : hasKey r s.rooms
  · left
    simp [createRoom, h]
  · right
    refine ⟨by simpa using h, ?_⟩
    simp [createRoom, h]

theorem createRoom_creates (nowS r o k : String) (s : Data) (h : hasKey r s.rooms = false) :
    alookup r (createRoom nowS r o k s).2.rooms =
      some { members := [o], created_at := nowS, kind := k } := by
  simp [createRoom, h, alookup_setKey]

theorem addRoomMember_rooms_eq (now : Int) (r u : String) (s : Data) :
    (addRoomMember now r u s).2.rooms = s.rooms ∨
    (∃ roomData, alookup r s.rooms = some roomData ∧
      (addRoomMember now r u s).2.rooms =
        setKey r { roomData with
          members := if u ∈ roomData.members then roomData.members
                     else roomData.members ++ [u] } s.rooms) := by
  cases hm : alookup r s.rooms with
  | none =>
    left
    simp only [addRoomMember, removeExpiredInvites, normalize_rooms, normalize_invites]
    simp only [hm]
    split <;> rfl
  | some roomData =>
    right
    refine ⟨roomData, rfl, ?_⟩
    simp only [addRoomMember, removeExpiredInvites, normalize_rooms, normalize_invites]
    simp only [hm]
    rfl

/-- Well-formedness of the rooms map: every room has a non-empty,
duplicate-free member list. -/
def roomsWF (rooms : List (String × RoomRec)) : Prop :=
  ∀ k rec, alookup k rooms = some rec → rec.members ≠ [] ∧ rec.members.Nodup

/-- Between two states, every existing room still exists and its member
list has only been extended at the end (no member is ever removed). -/
def roomsExtend (r₁ r₂ : List (String × RoomRec)) : Prop :=
  ∀ k rec, alookup k r₁ = some rec →
    ∃ rec', alookup k r₂ = some rec' ∧ ∃ tail, rec'.members = rec.members ++ tail

theorem roomsExtend_refl (r : List (String × RoomRec)) : roomsExtend r r :=
  fun _ rec h => ⟨rec, h, [], by simp⟩

theorem roomsExtend_trans {r₁ r₂ r₃ : List (String × RoomRec)}
    (h₁ : roomsExtend r₁ r₂) (h₂ : roomsExtend r₂ r₃) : roomsExtend r₁ r₃ := by
  intro k rec h
  obtain ⟨rec', h', t, ht⟩ := h₁ k rec h
  obtain ⟨rec'', h'', t', ht'⟩ := h₂ k rec' h'
  exact ⟨rec'', h'', t ++ t', by rw [ht', ht, List.append_assoc]⟩

theorem createRoom_extend_wf (nowS r o k : String) (s : Data) :
    roomsExtend s.rooms (createRoom nowS r o k s).2.rooms ∧
    (roomsWF s.rooms → roomsWF (createRoom nowS r o k s).2.rooms) := by
  rcases createRoom_rooms_eq nowS r o k s with h | ⟨hfresh, h⟩
  · rw [h]
    exact ⟨roomsExtend_refl _, fun hw => hw⟩
  · rw [h]
    have hnone : alookup r s.rooms = none := by
      cases hv : alookup r s.rooms with
      | none => rfl
      | some v => simp [hasKey, hv] at hfresh
    constructor
    · intro k' rec hk
      have hne : r ≠ k' := by
        intro he
        rw [he] at hnone
        rw [hnone] at hk
        cases hk
      refine ⟨rec, ?_, [], by simp⟩
      rw [alookup_setKey, if_neg hne]
      exact hk
    · intro hw k' rec hk
      rw [alookup_setKey] at hk
      by_cases he : r = k'
      · rw [if_pos he] at hk
        obtain rfl := Option.some.inj hk
        exact ⟨by simp, by simp⟩
      · rw [if_neg he] at hk
        exact hw k' rec hk

theorem addRoomMember_extend_wf (now : Int) (r u : String) (s : Data) :
    roomsExtend s.rooms (addRoomMember now r u s).2.rooms ∧
    (roomsWF s.rooms → roomsWF (addRoomMember now r u s).2.rooms) := by
  rcases addRoomMember_rooms_eq now r u s with h | ⟨roomData, hm, h⟩
  · rw [h]
    exact ⟨roomsExtend_refl _, fun hw => hw⟩
  · rw [h]
    constructor
    · intro k rec hk
      by_cases he : r = k
      · subst he
        rw [hm] at hk
        obtain rfl := Option.some.inj hk
        refine ⟨_, by rw [alookup_setKey, if_pos rfl], ?_⟩
        by_cases hu : u ∈ roomData.members
        · exact ⟨[], by simp [hu]⟩
        · exact ⟨[u], by simp [hu]⟩
      · exact ⟨rec, by rw [alookup_setKey, if_neg he]; exact hk, [], by simp⟩
    · intro hw k rec hk
      rw [alookup_setKey] at hk
      by_cases he : r = k
      · rw [if_pos he] at hk
        obtain rfl := Option.some.inj hk
        obtain ⟨hne, hnd⟩ := hw r roomData hm
        by_cases hu : u ∈ roomData.members
        · exact ⟨by simp [hu, hne], by simp [hu, hnd]⟩
        · refine ⟨by simp [hu], ?_⟩
          simp only [hu, if_false]
          simp [List.nodup_append, hnd, hu]
      · rw [if_neg he] at hk
        exact hw k rec hk

theorem applyOp_extend_wf (op : Op) (s : Data) :
    roomsExtend s.rooms (applyOp op s).rooms ∧
    (roomsWF s.rooms → roomsWF (applyOp op s).rooms) := by
  cases op with
  | registerOp nowS u pw =>
    simp only [applyOp]
    rw [registerUser_rooms]
    exact ⟨roomsExtend_refl _, fun h => h⟩
  | createRoomOp nowS r o k =>
    simp only [applyOp]
    exact createRoom_extend_wf nowS r o k s
  | addRoomMemberOp now r u =>
    simp only [applyOp]
    exact addRoomMember_extend_wf now r u s
  | inviteToRoomOp nowS r u =>
    simp only [applyOp]
    rw [inviteToRoom_rooms]
    exact ⟨roomsExtend_refl _, fun h => h⟩
  | inviteToChatOp nowS u c =>
    simp only [applyOp]
    rw [inviteToChat_rooms]
    exact ⟨roomsExtend_refl _, fun h => h⟩
  | createChatOp nowS a b k =>
    simp only [applyOp]
    rw [createChat_rooms]
    exact ⟨roomsExtend_refl _, fun h => h⟩
  | acceptChatInviteOp now u c =>
    simp only [applyOp]
    rw [acceptChatInvite_rooms]
    exact ⟨roomsExtend_refl _, fun h => h⟩
  | removeRoomInviteOp u r =>
    simp only [applyOp]
    rw [removeRoomInvite_rooms]
    exact ⟨roomsExtend_refl _, fun h => h⟩
  | removeChatInviteOp u c =>
    simp only [applyOp]
    rw [removeChatInvite_rooms]
    exact ⟨roomsExtend_refl _, fun h => h⟩
  | hasRoomInviteOp now u r =>
    simp only [applyOp]
    rw [hasRoomInvite_rooms]
    exact ⟨roomsExtend_refl _, fun h => h⟩
  | hasChatInviteOp now u c =>
    simp only [applyOp]
    rw [hasChatInvite_rooms]
    exact ⟨roomsExtend_refl _, fun h => h⟩
  | cleanupOp now u =>
    simp only [applyOp]
    rw [cleanupExpiredInvites_rooms]
    exact ⟨roomsExtend_refl _, fun h => h⟩
  | addMessageOp nowS t snd p =>
    simp only [applyOp]
    rw [addMessage_rooms]
    exact ⟨roomsExtend_refl _, fun h => h⟩
  | setStatusOp nowS u onl ls =>
    simp only [applyOp]
    rw [setStatus_rooms]
    exact ⟨roomsExtend_refl _, fun h => h⟩
  | setStatusesOp sts =>
    simp only [applyOp]
    rw [setStatuses_rooms]
    exact ⟨roomsExtend_refl _, fun h => h⟩

theorem applyOps_extend_wf (ops : List Op) (s : Data) :
    roomsExtend s.rooms (applyOps ops s).rooms ∧
    (roomsWF s.rooms → roomsWF (applyOps ops s).rooms) := by
  induction ops generalizing s with
  | nil => exact ⟨roomsExtend_refl _, fun h => h⟩
  | cons op rest ih =>
    have h1 := applyOp_extend_wf op s
    have h2 := ih (applyOp op s)
    rw [show applyOps (op :: rest) s = applyOps rest (applyOp op s) from rfl]
    exact ⟨roomsExtend_trans h1.1 h2.1, fun hw => h2.2 (h1.2 hw)⟩

/-- C7: in every state reachable from the empty store by any sequence of
state-changing Store operations, every room's member list is non-empty and
free of duplicates; member lists only ever grow at the end (no operation
removes a member or a room); and the room's creator is the head of, and a
member of, its member list forever after creation. -/
theorem C7_room_member_invariants :
    (∀ ops k rec, alookup k (applyOps ops emptyData).rooms = some rec →
        rec.members ≠ [] ∧ rec.members.Nodup) ∧
    (∀ ops (s : Data) k rec, alookup k s.rooms = some rec →
        ∃ rec', alookup k (applyOps ops s).rooms = some rec' ∧
          ∃ tail, rec'.members = rec.members ++ tail) ∧
    (∀ ops₁ ops₂ nowS k owner kind rec,
        hasKey k (applyOps ops₁ emptyData).rooms = false →
        alookup k (applyOps (ops₁ ++ Op.createRoomOp nowS k owner kind :: ops₂) emptyData).rooms
          = some rec →
        rec.members.head? = some owner ∧ owner ∈ rec.members) := by
  refine ⟨?_, ?_, ?_⟩
  · intro ops k rec h
    have hwf : roomsWF (applyOps ops emptyData).rooms :=
      (applyOps_extend_wf ops emptyData).2 (fun k rec h => by simp [emptyData, alookup] at h)
    exact hwf k rec h
  · intro ops s k rec h
    exact (applyOps_extend_wf ops s).1 k rec h
  · intro ops₁ ops₂ nowS k owner kind rec hnone hsome
    have happ : applyOps (ops₁ ++ Op.createRoomOp nowS k owner kind :: ops₂) emptyData =
        applyOps ops₂ (applyOp (Op.createRoomOp nowS k owner kind) (applyOps ops₁ emptyData)) := by
      simp [applyOps, List.foldl_append]
    have hc : alookup k (applyOp (Op.createRoomOp nowS k owner kind) (applyOps ops₁ emptyData)).rooms =
        some { members := [owner], created_at := nowS, kind := kind } := by
      simp only [applyOp]
      exact createRoom_creates nowS k owner kind (applyOps ops₁ emptyData) hnone
    obtain ⟨rec', hrec', tail, htail⟩ := (applyOps_extend_wf ops₂ _).1 k _ hc
    rw [happ] at hsome
    rw [hsome] at hrec'
    obtain rfl := Option.some.inj hrec'
    constructor
    · rw [htail]
      rfl
    · rw [htail]
      exact List.mem_append_left _ (by simp)

theorem C7_room_member_invariants_witness :
    ({ members := ["a"], created_at := "t", kind := "text" } : RoomRec).members ≠ [] ∧
    ({ members := ["a"], created_at := "t", kind := "text" } : RoomRec).members.Nodup :=
  C7_room_member_invariants.1 [Op.createRoomOp "t" "r" "a" "text"] "r"
    { members := ["a"], created_at := "t", kind := "text" } (by decide)

/-! ### C1 and C2: the join/accept paths and their invite-removal slip.
`add_room_member` and `accept_chat_invite` remove an invite with
`if target in invites[...]: invites[...].remove(target)`, which can only
match legacy bare-string invites; the object invites that `invite_to_room`
and `invite_to_chat` themselves create are never equal to the bare target
string, so they survive the join/accept. -/

def c1Ts : String := "2024-01-01T00:00:00+00:00"

def c1Now : Int := 1704067200000000

def c1State : Data :=
  { users := [("a", { password := "pa", created_at := c1Ts }),
              ("b", { password := "pb", created_at := c1Ts })],
    rooms := [("r", { members := ["a"], created_at := c1Ts, kind := "text" })],
    chats := [],
    messages := [],
    invitesUsers := [("b", { rooms := [Invite.obj (some "r") (some c1Ts)], chats := [] })],
    status := [("a", { online := false, last_seen := some c1Ts }),
               ("b", { online := false, last_seen := some c1Ts })] }

/-- C1: at a state where room `r` exists and user `b` holds a fresh
(non-expired) pending invite object for it, `add_room_member` returns true
and appends `b` to the members, but the pending invite object is NOT
removed — contradicting the claim that any pending room invite of the
user for the room is removed. Only legacy bare-string invites are
removable by the `remove` call in the code. -/
theorem C1_join_keeps_object_invite :
    (addRoomMember c1Now "r" "b" c1State).1 = true ∧
    (alookup "r" (addRoomMember c1Now "r" "b" c1State).2.rooms).map (fun rec => rec.members) =
      some ["a", "b"] ∧
    alookup "b" (addRoomMember c1Now "r" "b" c1State).2.invitesUsers =
      some { rooms := [Invite.obj (some "r") (some c1Ts)], chats := [] } ∧
    isInviteExpired (Invite.obj (some "r") (some c1Ts)) c1Now = false := by decide

/-- C1 (bare-string case works): with a legacy bare-string invite the
removal does happen, confirming that the removal test only matches that
legacy shape. -/
theorem C1_join_removes_bare_invite :
    (addRoomMember c1Now "r" "b"
      { c1State with invitesUsers := [("b", { rooms := [Invite.str "r"], chats := [] })] }).2.invitesUsers =
      [("b", { rooms := [], chats := [] })] := by decide

def c2State : Data :=
  { users := [("a", { password := "pa", created_at := c1Ts }),
              ("b", { password := "pb", created_at := c1Ts })],
    rooms := [],
    chats := [("a:b", { participants := ["a"], created_at := c1Ts, kind := "text" })],
    messages := [],
    invitesUsers := [("b", { rooms := [], chats := [Invite.obj (some "a:b") (some c1Ts)] })],
    status := [("a", { online := false, last_seen := some c1Ts }),
               ("b", { online := false, last_seen := some c1Ts })] }

/-- C2: at a state where chat `a:b` exists and user `b` holds a fresh
pending invite object for it, `accept_chat_invite` returns
`(true, false)` and adds `b` to the participants (sorted, deduplicated),
but the pending invite object is NOT removed — contradicting the claim
that the invite is removed on acceptance. -/
theorem C2_accept_keeps_object_invite :
    (acceptChatInvite c1Now "b" "a:b" c2State).1 = (true, false) ∧
    (alookup "a:b" (acceptChatInvite c1Now "b" "a:b" c2State).2.chats).map
      (fun c => c.participants) = some ["a", "b"] ∧
    alookup "b" (acceptChatInvite c1Now "b" "a:b" c2State).2.invitesUsers =
      some { rooms := [], chats := [Invite.obj (some "a:b") (some c1Ts)] } ∧
    isInviteExpired (Invite.obj (some "a:b") (some c1Ts)) c1Now = false := by decide

/-- C2 (expired branch): when the invite for the chat has just been swept
as expired, `accept_chat_invite` returns `(false, true)`, as the claim
states. -/
theorem C2_accept_reports_expired :
    (acceptChatInvite (c1Now + 301 * 1000000) "b" "a:b" c2State).1 = (false, true) := by decide

end RCord
